import Mathlib

/-!
Shallow embedding of the adaptive retrieval / context-management engine of
the `chatwithpage` browser extension (sources: `src/popup/main.js` and
`src/content/content.js`; the two files contain mirrored copies of the
engine).  Definitions are translated from the JavaScript source; numeric
code is idealised over the real numbers.  The one component whose code is
not part of the repository (LangChain's text splitter) is modelled from
the specification and marked as such.
-/

namespace ChatWithPage

/-! ## Router
`processPageContent` (`src/popup/main.js` lines 901-1011, mirrored at
`src/content/content.js` lines 1332-1444): `estimatedTokens =
markdown.length / 4`, then four branches on the estimate. -/

/-- The four processing strategies selected by the router. -/
inductive RoutingDecision where
  | direct
  | hybridCompact
  | hybridStandard
  | pureRetrieval
deriving DecidableEq, Repr

/-- Token estimate derived from character length (`markdown.length / 4`). -/
def tokenEstimate (len : Nat) : ℚ := (len : ℚ) / 4

/-- Strategy selection on the cold path of `processPageContent`:
`< 10000` direct stuffing, `< 20000` hybrid with a compact summary,
`< 30000` hybrid with a standard summary, otherwise pure RAG. -/
def classify (t : ℚ) : RoutingDecision :=
  if t < 10000 then .direct
  else if t < 20000 then .hybridCompact
  else if t < 30000 then .hybridStandard
  else .pureRetrieval

/-- Route chosen for a document's text on the cold path. -/
def routeOf (markdown : List Char) : RoutingDecision :=
  classify (tokenEstimate markdown.length)

/-! ## Warm cache path
On a cache hit (`cached && cached.vectorStore`), `processPageContent`
(`src/popup/main.js` lines 839-895) first re-checks the token estimate and
only then inspects which cached artifacts are present. -/

/-- The three chat modes the warm path can initialise
(`stuffing` = direct, `hybrid`, `rag` = pure retrieval). -/
inductive ChatMode where
  | stuffing
  | hybrid
  | rag
deriving DecidableEq, Repr

/-- Mode selected on a warm cache hit, as a function of the token estimate
and of whether a summary / a restorable vector store were cached
(`src/popup/main.js` lines 862-890). -/
def warmCacheMode (estimatedTokens : ℚ) (hasSummary hasIndex : Bool) : ChatMode :=
  if estimatedTokens < 10000 then .stuffing
  else if hasSummary && hasIndex then .hybrid
  else if hasIndex then .rag
  else .stuffing

/-! ## Cosine similarity and retrieval
`cosineSimilarity` and `retrieveRelevantChunks`
(`src/content/content.js` lines 1682-1805, mirrored in
`src/popup/main.js` lines 1148-1224).  JavaScript doubles are idealised as
real numbers. -/

/-- `vecA.reduce((sum, a, i) => sum + a * vecB[i], 0)`. -/
def dotList : List ℝ → List ℝ → ℝ
  | [], _ => 0
  | _, [] => 0
  | a :: as, b :: bs => a * b + dotList as bs

/-- `vec.reduce((sum, a) => sum + a * a, 0)`. -/
def sumSq : List ℝ → ℝ
  | [] => 0
  | a :: as => a * a + sumSq as

/-- `Math.sqrt` of the sum of squares (the `magnitudeA` / `magnitudeB`
locals of `cosineSimilarity`). -/
noncomputable def magnitudeOf (v : List ℝ) : ℝ := Real.sqrt (sumSq v)

/-- `cosineSimilarity(vecA, vecB)`: 0 on length mismatch, 0 when either
magnitude is zero, otherwise the normalised dot product. -/
noncomputable def cosineSimilarity (vecA vecB : List ℝ) : ℝ :=
  if vecA.length ≠ vecB.length then 0
  else if magnitudeOf vecA = 0 ∨ magnitudeOf vecB = 0 then 0
  else dotList vecA vecB / (magnitudeOf vecA * magnitudeOf vecB)

/-- One entry of the `similarities` array built by
`retrieveRelevantChunks`: chunk text, score and original chunk index. -/
structure ScoredChunk where
  chunk : String
  score : ℝ
  index : Nat

/-- `vectorStore.embeddings.map((embedding, index) => ...)`: score every
stored chunk against the query embedding.  The source's special cases
(missing / empty / dimension-mismatched stored vector) all assign score 0,
which coincides with `cosineSimilarity` at those inputs, so the score is
uniformly `cosineSimilarity`. -/
noncomputable def scoreChunksFrom (queryEmbedding : List ℝ) :
    Nat → List (String × List ℝ) → List ScoredChunk
  | _, [] => []
  | i, entry :: rest =>
    ⟨entry.1, cosineSimilarity queryEmbedding entry.2, i⟩ ::
      scoreChunksFrom queryEmbedding (i + 1) rest

/-- Stable insertion of an element into a list already sorted by
descending score: the element goes after every earlier element with a
strictly greater score and before the first one whose score is
less than or equal. -/
noncomputable def insertDesc (x : ScoredChunk) : List ScoredChunk → List ScoredChunk
  | [] => [x]
  | y :: ys => if x.score < y.score then y :: insertDesc x ys else x :: y :: ys

/-- Stable sort by descending score, modelling the ECMAScript stable
`Array.prototype.sort((a, b) => b.score - a.score)`. -/
noncomputable def sortDesc : List ScoredChunk → List ScoredChunk
  | [] => []
  | x :: xs => insertDesc x (sortDesc xs)

/-- The scored pipeline of `retrieveRelevantChunks`: guard against an
invalid query embedding, score all chunks, keep only truthy chunks whose
score meets the threshold, sort by descending score, take the top `k`. -/
noncomputable def retrieveScored (queryEmbedding : List ℝ)
    (store : List (String × List ℝ)) (k : Nat) (scoreThreshold : ℝ) :
    List ScoredChunk :=
  if queryEmbedding.isEmpty then []
  else
    (sortDesc ((scoreChunksFrom queryEmbedding 0 store).filter
      (fun it => decide (it.chunk ≠ "" ∧ scoreThreshold ≤ it.score)))).take k

/-- `retrieveRelevantChunks(query, k = 4, scoreThreshold = 0.5)` maps the
surviving scored entries back to their chunk texts. -/
noncomputable def retrieveRelevantChunks (queryEmbedding : List ℝ)
    (store : List (String × List ℝ)) (k : Nat) (scoreThreshold : ℝ) :
    List String :=
  (retrieveScored queryEmbedding store k scoreThreshold).map (fun it => it.chunk)

/-- The intended output order of the retrieval pipeline: descending score,
ties broken by the original chunk index. -/
def scoredOrder (a b : ScoredChunk) : Prop :=
  b.score ≤ a.score ∧ (a.score = b.score → a.index < b.index)

/-! ## Hybrid controller
The hybrid branch of `handleSend` (`src/popup/main.js` lines 1447-1533,
mirrored at `src/content/content.js` lines 2038-2135). -/

/-- The sentinel marker the summary-stage prompt instructs the model to
emit when the summary cannot answer the question. -/
def SENTINEL : String := "🔍 NEEDS_DETAIL:"

/-- Separator used when joining retrieved chunks
(`relevantChunks.join('\n\n---\n\n')`). -/
def CHUNK_SEPARATOR : String := "\n\n---\n\n"

/-- The fixed answer used when retrieval comes back empty during
escalation. -/
def NO_DETAIL_MESSAGE : String :=
  "Could not find specific details. The summary may be your best answer."

/-- Pattern match at the head of a character sequence. -/
def seqStartsWith : List Char → List Char → Bool
  | [], _ => true
  | _ :: _, [] => false
  | p :: ps, c :: cs => p = c && seqStartsWith ps cs

/-- Substring occurrence test on character sequences
(`String.prototype.includes`). -/
def containsSeq (pat : List Char) : List Char → Bool
  | [] => seqStartsWith pat []
  | c :: cs => seqStartsWith pat (c :: cs) || containsSeq pat cs

/-- `fullResponse.includes('🔍 NEEDS_DETAIL:')`. -/
def containsSentinel (s : String) : Bool := containsSeq SENTINEL.data s.data

/-- `Array.prototype.join` with the chunk separator. -/
def joinRetrieved : List String → String
  | [] => ""
  | [c] => c
  | c :: rest => c ++ CHUNK_SEPARATOR ++ joinRetrieved rest

/-- Observable outcome of one hybrid-mode question: the final answer text,
how many retrieval queries ran, and how many detail-stage completion calls
were issued. -/
structure HybridOutcome where
  answer : String
  retrievalCalls : Nat
  detailCompletionCalls : Nat
deriving DecidableEq, Repr

/-- One hybrid-mode question, as a function of the summary-stage response,
the chunks retrieval would return, and the detail-stage response: escalate
iff the summary-stage response contains the sentinel; on escalation
retrieve once, and issue the second completion call only when the joined
context is non-empty. -/
def runHybridQuestion (summaryResponse : String) (retrieved : List String)
    (detailResponse : String) : HybridOutcome :=
  if containsSentinel summaryResponse then
    if joinRetrieved retrieved ≠ "" then
      { answer := detailResponse, retrievalCalls := 1, detailCompletionCalls := 1 }
    else
      { answer := NO_DETAIL_MESSAGE, retrievalCalls := 1, detailCompletionCalls := 0 }
  else
    { answer := summaryResponse, retrievalCalls := 0, detailCompletionCalls := 0 }

/-! ## Chunker configuration and truncation
`getOptimalChunkConfig` and `truncateMarkdownSafely`
(`src/content/content.js` lines 1550-1635). -/

/-- `getOptimalChunkConfig(documentLength, useLargeChunks)`: banded chunk
size and `Math.round(chunkSize * overlapPercent / 100)` overlap (exact for
every band). -/
def getOptimalChunkConfig (documentLength : Nat) (useLargeChunks : Bool) :
    Nat × Nat :=
  if useLargeChunks then
    if documentLength < 30000 then (1500, 1500 * 15 / 100)
    else if documentLength < 80000 then (2500, 2500 * 15 / 100)
    else if documentLength < 150000 then (3500, 3500 * 15 / 100)
    else (5000, 5000 * 15 / 100)
  else
    if documentLength < 20000 then (500, 500 * 20 / 100)
    else if documentLength < 50000 then (800, 800 * 18 / 100)
    else if documentLength < 100000 then (1200, 1200 * 15 / 100)
    else if documentLength < 200000 then (1800, 1800 * 12 / 100)
    else (2500, 2500 * 10 / 100)

/-- Modelled from the spec: the chunker itself is LangChain's
`RecursiveCharacterTextSplitter`, whose implementation is not part of this
repository.  Section 4.2 specifies `split(text, chunkSize, overlap)`
producing overlapping segments in which consecutive chunks share `overlap`
characters; this models it as fixed-stride overlapping segmentation with
stride `size - overlap`, using the list length as recursion fuel. -/
def chunksAux (size step : Nat) : Nat → List Char → List (List Char)
  | 0, s => [s]
  | fuel + 1, s =>
    if s.length ≤ size then [s]
    else s.take size :: chunksAux size step fuel (s.drop step)

/-- Modelled from the spec: `split(text, chunkSize, overlap)` of §4.2. -/
def chunkDoc (size overlap : Nat) (s : List Char) : List (List Char) :=
  chunksAux size (size - overlap) s.length s

/-- The chunks built for the retrieval pipeline (`setupRAGPipeline` uses
`getOptimalChunkConfig(markdown.length, false)`). -/
def retrievalChunks (s : List Char) : List (List Char) :=
  chunkDoc (getOptimalChunkConfig s.length false).1
    (getOptimalChunkConfig s.length false).2 s

/-- Strip the leading `overlap` characters from every chunk after the
first, so that concatenation removes the redundancy introduced by
chunking. -/
def dropOverlaps (overlap : Nat) : List (List Char) → List (List Char)
  | [] => []
  | c :: cs => c :: cs.map (List.drop overlap)

/-- Marker appended by `truncateMarkdownSafely`. -/
def TRUNCATION_MARKER : String :=
  "\n\n... [content truncated at natural markdown boundary]"

/-- The greedy reassembly loop of `truncateMarkdownSafely`: append whole
chunks (plus a blank line) while they fit the budget; at the first chunk
that does not fit, append a prefix of it only when more than 500
characters of budget remain, then stop. -/
def combineChunks (maxChars : Nat) : List (List Char) → List Char → List Char
  | [], acc => acc
  | c :: cs, acc =>
    if acc.length + c.length ≤ maxChars then
      combineChunks maxChars cs (acc ++ c ++ ('\n' :: '\n' :: []))
    else if maxChars - acc.length > 500 then acc ++ c.take (maxChars - acc.length)
    else acc

/-- `truncateMarkdownSafely(markdown, maxChars = 50000)`
(`src/content/content.js` lines 1593-1635): the identity on inputs within
budget; otherwise chunk with the large-chunk configuration, greedily
reassemble a bounded prefix, and append the truncation marker. -/
def truncateMarkdownSafely (markdown : List Char) (maxChars : Nat) : List Char :=
  if markdown.length ≤ maxChars then markdown
  else
    combineChunks maxChars
      (chunkDoc (getOptimalChunkConfig markdown.length true).1
        (getOptimalChunkConfig markdown.length true).2 markdown) []
      ++ TRUNCATION_MARKER.data

/-! ## Model fallback coordinator
`MODEL_FALLBACK_CHAIN`, `getNextModel`, `switchToNextModel`
(`src/content/content.js` lines 738-790) and the `window.fetch`
interceptor (lines 936-1021). -/

/-- The fixed model priority chain. -/
def MODEL_FALLBACK_CHAIN : List String :=
  ["gemini-2.5-flash-lite", "gemini-2.5-flash",
   "gemini-2.0-flash-lite", "gemini-2.0-flash"]

/-- `getCurrentModel()`. -/
def getCurrentModel (currentModelIndex : Nat) : Option String :=
  MODEL_FALLBACK_CHAIN.get? currentModelIndex

/-- `getNextModel()`: the next model in the chain, or none when the cursor
is at the last entry. -/
def getNextModel (currentModelIndex : Nat) : Option String :=
  if currentModelIndex < MODEL_FALLBACK_CHAIN.length - 1 then
    MODEL_FALLBACK_CHAIN.get? (currentModelIndex + 1)
  else none

/-- `switchToNextModel()`: advance the cursor when a next model exists;
returns the new cursor and whether a switch happened. -/
def switchToNextModel (currentModelIndex : Nat) : Nat × Bool :=
  match getNextModel currentModelIndex with
  | some _ => (currentModelIndex + 1, true)
  | none => (currentModelIndex, false)

/-- The user-visible reaction of the interceptor once a rate-limit
detection has been honored. -/
inductive RateLimitUI where
  | switchPrompt
  | finalMessage
  | noAction
deriving DecidableEq, Repr

/-- Lines 1000-1012 of `src/content/content.js`: show the switch prompt
when a next model exists and no prompt is pending; show the terminal
all-models-exhausted message when the chain is exhausted. -/
def rateLimitOutcome (currentModelIndex : Nat) (promptShown : Bool) :
    RateLimitUI :=
  match getNextModel currentModelIndex with
  | some _ => if promptShown then .noAction else .switchPrompt
  | none => .finalMessage

/-! ## Rate-limit detection guards
The three guards of the `window.fetch` interceptor
(`src/content/content.js` lines 945-964) over the tracking state declared
at lines 750-753. -/

/-- `RATE_LIMIT_COOLDOWN = 3000` milliseconds. -/
def RATE_LIMIT_COOLDOWN : ℤ := 3000

/-- The mutable rate-limit tracking state (`activeRequestId`,
`lastRateLimitTime`, `isHandlingRateLimit`). -/
structure RateLimitState where
  activeRequestId : Option String
  lastRateLimitTime : ℤ
  isHandlingRateLimit : Bool

/-- Whether a 429 detection at time `now` is honored: guard 1 requires an
active request, guard 2 requires the cooldown to have elapsed, guard 3
requires no detection to be in flight already. -/
def honorRateLimit (st : RateLimitState) (now : ℤ) : Bool :=
  match st.activeRequestId with
  | none => false
  | some _ =>
    if now - st.lastRateLimitTime < RATE_LIMIT_COOLDOWN then false
    else if st.isHandlingRateLimit then false
    else true

/-- State update performed when a detection is honored
(`lastRateLimitTime = now; isHandlingRateLimit = true`). -/
def recordRateLimit (st : RateLimitState) (now : ℤ) : RateLimitState :=
  { st with lastRateLimitTime := now, isHandlingRateLimit := true }

/-! ## Theorems -/

/-- C1: the routing classification is a pure function of the token
estimate (character length divided by 4) matching the documented
thresholds; an estimate below 10,000 selects Direct, `[10000, 20000)`
selects Hybrid-compact, `[20000, 30000)` selects Hybrid-standard,
`≥ 30000` selects PureRetrieval, and each boundary value lands in the
higher bucket. -/
theorem classify_matches_thresholds (t : ℚ) :
    (∀ doc : List Char, routeOf doc = classify (tokenEstimate doc.length)) ∧
    (t < 10000 → classify t = .direct) ∧
    (10000 ≤ t → t < 20000 → classify t = .hybridCompact) ∧
    (20000 ≤ t → t < 30000 → classify t = .hybridStandard) ∧
    (30000 ≤ t → classify t = .pureRetrieval) ∧
    classify 10000 = .hybridCompact ∧
    classify 20000 = .hybridStandard ∧
    classify 30000 = .pureRetrieval := by
  refine ⟨fun _ => rfl, ?_, ?_, ?_, ?_, by norm_num [classify],
    by norm_num [classify], by norm_num [classify]⟩
  · intro h
    unfold classify
    rw [if_pos h]
  · intro h1 h2
    unfold classify
    rw [if_neg (not_lt.2 h1), if_pos h2]
  · intro h1 h2
    unfold classify
    rw [if_neg (not_lt.2 (le_trans (by norm_num) h1)),
      if_neg (not_lt.2 h1), if_pos h2]
  · intro h1
    unfold classify
    rw [if_neg (not_lt.2 (le_trans (by norm_num) h1)),
      if_neg (not_lt.2 (le_trans (by norm_num) h1)), if_neg (not_lt.2 h1)]

/-- Witness for C1: the estimate 25,000 satisfies the Hybrid-standard
bounds and is classified as Hybrid-standard. -/
theorem classify_matches_thresholds_witness :
    ((20000 : ℚ) ≤ 25000 ∧ (25000 : ℚ) < 30000) ∧
    classify 25000 = .hybridStandard :=
  ⟨⟨by norm_num, by norm_num⟩,
   (classify_matches_thresholds 25000).2.2.2.1 (by norm_num) (by norm_num)⟩

/-- C2: within one hybrid-mode question, retrieval fires exactly when the
summary-stage response contains the sentinel marker, hence at most once;
the detail-stage completion call count never exceeds the retrieval count;
and the escalation counts do not depend on the detail-stage response, so a
sentinel marker inside the detail-stage response is never escalated
again. -/
theorem hybrid_escalates_at_most_once (s d d2 : String) (r : List String) :
    (runHybridQuestion s r d).retrievalCalls =
      (if containsSentinel s then 1 else 0) ∧
    (runHybridQuestion s r d).retrievalCalls ≤ 1 ∧
    (runHybridQuestion s r d).detailCompletionCalls ≤
      (runHybridQuestion s r d).retrievalCalls ∧
    (runHybridQuestion s r d).retrievalCalls =
      (runHybridQuestion s r d2).retrievalCalls ∧
    (runHybridQuestion s r d).detailCompletionCalls =
      (runHybridQuestion s r d2).detailCompletionCalls := by
  unfold runHybridQuestion
  split_ifs <;> simp

/-- C9: during hybrid escalation with an empty retrieval result, the
terminal answer is the fixed could-not-find-details message and no second
completion call is issued (retrieval itself still ran once). -/
theorem hybrid_empty_retrieval_fallback (s d : String)
    (h : containsSentinel s = true) :
    (runHybridQuestion s [] d).answer = NO_DETAIL_MESSAGE ∧
    (runHybridQuestion s [] d).retrievalCalls = 1 ∧
    (runHybridQuestion s [] d).detailCompletionCalls = 0 := by
  unfold runHybridQuestion
  rw [if_pos h]
  simp [joinRetrieved]

/-- Witness for C9: a concrete summary-stage response containing the
sentinel, with empty retrieval, yields the fixed fallback message. -/
theorem hybrid_empty_retrieval_fallback_witness :
    containsSentinel "🔍 NEEDS_DETAIL: the exact dates" = true ∧
    (runHybridQuestion "🔍 NEEDS_DETAIL: the exact dates" [] "x").answer =
      NO_DETAIL_MESSAGE :=
  ⟨by decide, (hybrid_empty_retrieval_fallback _ "x" (by decide)).1⟩

/-- C10: `truncateMarkdownSafely` is the identity on inputs whose length
is at most the character budget; no chunking happens and no marker is
appended. -/
theorem truncateMarkdownSafely_id (markdown : List Char) (maxChars : Nat)
    (h : markdown.length ≤ maxChars) :
    truncateMarkdownSafely markdown maxChars = markdown := by
  unfold truncateMarkdownSafely
  rw [if_pos h]

/-- Witness for C10: a five-character input is within the default 50,000
character budget and is returned unchanged. -/
theorem truncateMarkdownSafely_id_witness :
    ("hello".data).length ≤ 50000 ∧
    truncateMarkdownSafely "hello".data 50000 = "hello".data :=
  ⟨by decide, truncateMarkdownSafely_id _ 50000 (by decide)⟩

/-- Counterexample for C6: with a cached summary and index both present
but a token estimate of 8,000 (a 32,000-character document), the warm
path selects Direct (stuffing), not Hybrid: the reconstruction is not
independent of re-running the token-estimate classification. -/
theorem warmCacheMode_ignores_artifacts_below_threshold :
    warmCacheMode (tokenEstimate 32000) true true = ChatMode.stuffing ∧
    warmCacheMode (tokenEstimate 32000) true true ≠ ChatMode.hybrid := by
  have h : warmCacheMode (tokenEstimate 32000) true true = ChatMode.stuffing := by
    unfold warmCacheMode tokenEstimate
    norm_num
  exact ⟨h, by rw [h]; intro hc; cases hc⟩

/-- C6 (amended): on a warm cache hit whose token estimate is at least
10,000, the mode is reconstructed solely from the presence or absence of
the cached summary and index — summary plus index yields Hybrid, index
only yields PureRetrieval, no index yields the Direct fallback; below
10,000 the router's estimate check takes precedence and Direct is chosen
regardless of the cached artifacts. -/
theorem warmCacheMode_spec (t : ℚ) (hs hv : Bool) (h : 10000 ≤ t) :
    (hs = true → hv = true → warmCacheMode t hs hv = ChatMode.hybrid) ∧
    (hv = true → hs = false → warmCacheMode t hs hv = ChatMode.rag) ∧
    (hv = false → warmCacheMode t hs hv = ChatMode.stuffing) ∧
    (∀ t2 : ℚ, ∀ hs2 hv2 : Bool, t2 < 10000 →
      warmCacheMode t2 hs2 hv2 = ChatMode.stuffing) := by
  have hlt : ¬ t < 10000 := not_lt.2 h
  refine ⟨?_, ?_, ?_, ?_⟩
  · intro h1 h2
    subst h1; subst h2
    simp [warmCacheMode, hlt]
  · intro h1 h2
    subst h1; subst h2
    simp [warmCacheMode, hlt]
  · intro h1
    subst h1
    simp [warmCacheMode, hlt]
  · intro t2 hs2 hv2 h2
    simp [warmCacheMode, h2]

/-- Witness for C6: estimate 15,000 with summary and index cached yields
Hybrid. -/
theorem warmCacheMode_spec_witness :
    (10000 : ℚ) ≤ 15000 ∧ warmCacheMode 15000 true true = ChatMode.hybrid :=
  ⟨by norm_num, (warmCacheMode_spec 15000 true true (by norm_num)).1 rfl rfl⟩

/-- C7: the fallback-chain cursor never moves backward and a successful
switch advances it by exactly one; `getNextModel` returns none exactly
when the cursor is at (or beyond) the last entry of the chain; and once
the chain is exhausted a further honored rate-limit detection shows the
terminal all-models-exhausted message, never the switch prompt. -/
theorem fallback_chain_monotone (i : Nat) :
    i ≤ (switchToNextModel i).1 ∧
    ((switchToNextModel i).2 = true → (switchToNextModel i).1 = i + 1) ∧
    (getNextModel i = none ↔ MODEL_FALLBACK_CHAIN.length - 1 ≤ i) ∧
    (getNextModel i = none → ∀ p,
      rateLimitOutcome i p = RateLimitUI.finalMessage ∧
      rateLimitOutcome i p ≠ RateLimitUI.switchPrompt) := by
  by_cases h : MODEL_FALLBACK_CHAIN.length - 1 ≤ i
  · have hg : getNextModel i = none := by
      unfold getNextModel
      rw [if_neg (not_lt.2 h)]
    refine ⟨?_, ?_, ?_, ?_⟩
    · simp [switchToNextModel, hg]
    · simp [switchToNextModel, hg]
    · simp [hg, h]
    · intro _ p
      constructor
      · simp [rateLimitOutcome, hg]
      · simp [rateLimitOutcome, hg]
  · have hlen : MODEL_FALLBACK_CHAIN.length = 4 := rfl
    have h3 : i < 3 := by
      rw [hlen] at h
      omega
    interval_cases i <;> exact ⟨by decide, by decide, by decide, by decide⟩

/-- Witness for C7: at cursor 3 (the last entry) the chain is exhausted
and a further detection produces the terminal message. -/
theorem fallback_chain_monotone_witness :
    getNextModel 3 = none ∧
    rateLimitOutcome 3 false = RateLimitUI.finalMessage :=
  ⟨by decide, ((fallback_chain_monotone 3).2.2.2 (by decide) false).1⟩

/-- C8: a 429 detection is honored iff all three guards pass — an active
request exists (stale errors arriving after a request was abandoned find
`activeRequestId` cleared and are ignored), the 3-second cooldown has
elapsed since the last honored detection, and no detection is already
being handled; moreover a further detection within the cooldown window of
an honored one is not honored. -/
theorem rate_limit_guards (st : RateLimitState) (now later : ℤ) :
    (honorRateLimit st now = true ↔
      st.activeRequestId ≠ none ∧
      RATE_LIMIT_COOLDOWN ≤ now - st.lastRateLimitTime ∧
      st.isHandlingRateLimit = false) ∧
    (honorRateLimit st now = true → later - now < RATE_LIMIT_COOLDOWN →
      honorRateLimit (recordRateLimit st now) later = false) := by
  obtain ⟨req, last, handling⟩ := st
  constructor
  · cases req with
    | none => simp [honorRateLimit]
    | some r =>
      simp only [honorRateLimit, RATE_LIMIT_COOLDOWN]
      split_ifs with h1 h2
      · simp only [Bool.false_eq_true, false_iff]
        intro hc
        omega
      · simp only [Bool.false_eq_true, false_iff]
        intro hc
        rw [h2] at hc
        exact absurd hc.2.2 (by simp)
      · simp only [true_iff]
        refine ⟨by simp, by omega, ?_⟩
        cases handling
        · rfl
        · exact absurd rfl h2
  · intro _ _
    cases req with
    | none => rfl
    | some r =>
      show honorRateLimit ⟨some r, now, true⟩ later = false
      unfold honorRateLimit
      split_ifs <;> rfl

/-- Witness for C8: an active request with cooldown satisfied is honored;
a second detection one second later, after the state update, is not. -/
theorem rate_limit_guards_witness :
    honorRateLimit ⟨some "req", 0, false⟩ 5000 = true ∧
    honorRateLimit (recordRateLimit ⟨some "req", 0, false⟩ 5000) 6000 = false :=
  ⟨by decide,
   (rate_limit_guards ⟨some "req", 0, false⟩ 5000 6000).2 (by decide) (by decide)⟩

/-- The dot product is symmetric. -/
theorem dotList_comm (a b : List ℝ) : dotList a b = dotList b a := by
  induction a generalizing b with
  | nil => cases b <;> rfl
  | cons x as ih =>
    cases b with
    | nil => rfl
    | cons y bs =>
      simp only [dotList, ih, mul_comm]

/-- Sums of squares are nonnegative. -/
theorem sumSq_nonneg (a : List ℝ) : 0 ≤ sumSq a := by
  induction a with
  | nil => exact le_refl 0
  | cons x as ih => exact add_nonneg (mul_self_nonneg x) ih

/-- Bridge from the recursive dot product to a finite sum over indices. -/
theorem dotList_eq_sum (a b : List ℝ) (h : a.length = b.length) :
    dotList a b = ∑ i ∈ Finset.range a.length, a.getD i 0 * b.getD i 0 := by
  induction a generalizing b with
  | nil => simp [dotList]
  | cons x as ih =>
    cases b with
    | nil => simp at h
    | cons y bs =>
      have h2 : as.length = bs.length := by simpa using h
      simp only [dotList, List.length_cons]
      rw [Finset.sum_range_succ' (fun i => (x :: as).getD i 0 * (y :: bs).getD i 0)]
      simp only [List.getD_cons_succ, List.getD_cons_zero]
      rw [← ih bs h2]
      ring

/-- Bridge from the recursive sum of squares to a finite sum. -/
theorem sumSq_eq_sum (a : List ℝ) :
    sumSq a = ∑ i ∈ Finset.range a.length, (a.getD i 0) ^ 2 := by
  induction a with
  | nil => simp [sumSq]
  | cons x as ih =>
    simp only [sumSq, List.length_cons]
    rw [Finset.sum_range_succ' (fun i => ((x :: as).getD i 0) ^ 2)]
    simp only [List.getD_cons_succ, List.getD_cons_zero]
    rw [← ih]
    ring

/-- Cauchy-Schwarz for the list dot product (equal lengths). -/
theorem dotList_sq_le (a b : List ℝ) (h : a.length = b.length) :
    (dotList a b) ^ 2 ≤ sumSq a * sumSq b := by
  rw [dotList_eq_sum a b h, sumSq_eq_sum a, sumSq_eq_sum b, ← h]
  exact Finset.sum_mul_sq_le_sq_mul_sq _ _ _

/-- Cauchy-Schwarz with magnitudes. -/
theorem abs_dotList_le (a b : List ℝ) (h : a.length = b.length) :
    |dotList a b| ≤ magnitudeOf a * magnitudeOf b := by
  have h1 := dotList_sq_le a b h
  have h2 : |dotList a b| = Real.sqrt ((dotList a b) ^ 2) :=
    (Real.sqrt_sq_eq_abs _).symm
  rw [h2, magnitudeOf, magnitudeOf, ← Real.sqrt_mul (sumSq_nonneg a)]
  exact Real.sqrt_le_sqrt h1

/-- `cosineSimilarity` on a length mismatch. -/
theorem cosineSimilarity_of_ne_length (a b : List ℝ)
    (h : a.length ≠ b.length) : cosineSimilarity a b = 0 := by
  unfold cosineSimilarity
  rw [if_pos h]

/-- `cosineSimilarity` when either magnitude vanishes. -/
theorem cosineSimilarity_of_zero (a b : List ℝ)
    (h : magnitudeOf a = 0 ∨ magnitudeOf b = 0) : cosineSimilarity a b = 0 := by
  unfold cosineSimilarity
  by_cases hl : a.length ≠ b.length
  · rw [if_pos hl]
  · rw [if_neg hl, if_pos h]

/-- `cosineSimilarity` in the main branch. -/
theorem cosineSimilarity_of_pos (a b : List ℝ) (h : a.length = b.length)
    (hz : ¬(magnitudeOf a = 0 ∨ magnitudeOf b = 0)) :
    cosineSimilarity a b = dotList a b / (magnitudeOf a * magnitudeOf b) := by
  unfold cosineSimilarity
  rw [if_neg (by simp [h]), if_neg hz]

/-- Cosine similarity is bounded by 1 in absolute value. -/
theorem abs_cosineSimilarity_le_one (a b : List ℝ) :
    |cosineSimilarity a b| ≤ 1 := by
  by_cases h1 : a.length = b.length
  · by_cases h2 : magnitudeOf a = 0 ∨ magnitudeOf b = 0
    · rw [cosineSimilarity_of_zero a b h2]
      simp
    · push_neg at h2
      have hA : 0 < magnitudeOf a :=
        lt_of_le_of_ne (Real.sqrt_nonneg _) (Ne.symm h2.1)
      have hB : 0 < magnitudeOf b :=
        lt_of_le_of_ne (Real.sqrt_nonneg _) (Ne.symm h2.2)
      rw [cosineSimilarity_of_pos a b h1 (by push_neg; exact h2),
        abs_div, abs_of_pos (mul_pos hA hB)]
      exact (div_le_one (mul_pos hA hB)).2 (abs_dotList_le a b h1)
  · rw [cosineSimilarity_of_ne_length a b h1]
    simp

/-- C4: cosine similarity is symmetric, bounded in `[-1, 1]`, and exactly
0 whenever either input vector has zero magnitude. -/
theorem cosineSimilarity_spec (a b : List ℝ) :
    cosineSimilarity a b = cosineSimilarity b a ∧
    -1 ≤ cosineSimilarity a b ∧ cosineSimilarity a b ≤ 1 ∧
    (magnitudeOf a = 0 ∨ magnitudeOf b = 0 → cosineSimilarity a b = 0) := by
  refine ⟨?_, ?_, ?_, ?_⟩
  · by_cases h : a.length = b.length
    · by_cases hz : magnitudeOf a = 0 ∨ magnitudeOf b = 0
      · rw [cosineSimilarity_of_zero a b hz,
          cosineSimilarity_of_zero b a (Or.symm hz)]
      · rw [cosineSimilarity_of_pos a b h hz,
          cosineSimilarity_of_pos b a h.symm (fun hc => hz (Or.symm hc)),
          dotList_comm a b, mul_comm (magnitudeOf a)]
    · rw [cosineSimilarity_of_ne_length a b h,
        cosineSimilarity_of_ne_length b a (fun hc => h hc.symm)]
  · rcases abs_le.1 (abs_cosineSimilarity_le_one a b) with ⟨h1, _⟩
    exact h1
  · rcases abs_le.1 (abs_cosineSimilarity_le_one a b) with ⟨_, h2⟩
    exact h2
  · intro hz
    exact cosineSimilarity_of_zero a b hz

/-- Witness for C4: a zero vector on the left forces similarity 0. -/
theorem cosineSimilarity_spec_witness :
    magnitudeOf [(0 : ℝ), 0] = 0 ∧ cosineSimilarity [(0 : ℝ), 0] [3, 4] = 0 := by
  have hm : magnitudeOf [(0 : ℝ), 0] = 0 := by
    simp [magnitudeOf, sumSq]
  exact ⟨hm, (cosineSimilarity_spec [(0 : ℝ), 0] [3, 4]).2.2.2 (Or.inl hm)⟩

/-- Membership in a stable descending insertion. -/
theorem mem_insertDesc (x y : ScoredChunk) (l : List ScoredChunk) :
    y ∈ insertDesc x l ↔ y = x ∨ y ∈ l := by
  induction l with
  | nil => simp [insertDesc]
  | cons z zs ih =>
    unfold insertDesc
    split_ifs with h
    · simp only [List.mem_cons, ih]
      tauto
    · simp only [List.mem_cons]

/-- The stable sort permutes membership. -/
theorem mem_sortDesc (y : ScoredChunk) (l : List ScoredChunk) :
    y ∈ sortDesc l ↔ y ∈ l := by
  induction l with
  | nil => simp [sortDesc]
  | cons x xs ih => simp [sortDesc, mem_insertDesc, ih]

/-- Inserting an element with a larger original index than everything in
an ordered list keeps the list ordered by descending score with ties
broken by original index. -/
theorem insertDesc_pairwise (x : ScoredChunk) (l : List ScoredChunk)
    (hl : l.Pairwise scoredOrder) (hidx : ∀ y ∈ l, x.index < y.index) :
    (insertDesc x l).Pairwise scoredOrder := by
  induction l with
  | nil => simp [insertDesc, scoredOrder]
  | cons y ys ih =>
    rw [List.pairwise_cons] at hl
    obtain ⟨hy, hys⟩ := hl
    unfold insertDesc
    split_ifs with hxy
    · rw [List.pairwise_cons]
      refine ⟨?_, ih hys (fun z hz => hidx z (List.mem_cons_of_mem y hz))⟩
      intro z hz
      rw [mem_insertDesc] at hz
      rcases hz with rfl | hz
      · exact ⟨le_of_lt hxy, fun he => absurd he.symm (ne_of_lt hxy)⟩
      · exact hy z hz
    · rw [List.pairwise_cons]
      refine ⟨?_, List.pairwise_cons.2 ⟨hy, hys⟩⟩
      intro z hz
      rcases List.mem_cons.1 hz with rfl | hz2
      · exact ⟨not_lt.1 hxy, fun _ => hidx z (List.mem_cons_self z ys)⟩
      · exact ⟨le_trans (hy z hz2).1 (not_lt.1 hxy),
          fun _ => hidx z (List.mem_cons_of_mem y hz2)⟩

/-- Sorting a list whose original indices increase yields a list ordered
by descending score with ties broken by original index. -/
theorem sortDesc_pairwise (l : List ScoredChunk)
    (h : l.Pairwise (fun a b => a.index < b.index)) :
    (sortDesc l).Pairwise scoredOrder := by
  induction l with
  | nil => simp [sortDesc]
  | cons x xs ih =>
    rw [List.pairwise_cons] at h
    exact insertDesc_pairwise x (sortDesc xs) (ih h.2)
      (fun y hy => h.1 y ((mem_sortDesc y xs).1 hy))

/-- Every scored entry points back to its stored chunk and carries exactly
the cosine similarity of the query with that chunk's embedding. -/
theorem mem_scoreChunksFrom (q : List ℝ) (i : Nat)
    (store : List (String × List ℝ)) (it : ScoredChunk)
    (h : it ∈ scoreChunksFrom q i store) :
    i ≤ it.index ∧ ∃ e, store.get? (it.index - i) = some (it.chunk, e) ∧
      it.score = cosineSimilarity q e := by
  induction store generalizing i with
  | nil => simp [scoreChunksFrom] at h
  | cons entry rest ih =>
    simp only [scoreChunksFrom, List.mem_cons] at h
    rcases h with rfl | h2
    · exact ⟨le_refl i, entry.2, by simp, rfl⟩
    · obtain ⟨hle, e, hg, hs⟩ := ih (i + 1) h2
      refine ⟨le_trans (Nat.le_succ i) hle, e, ?_, hs⟩
      have hj : it.index - i = (it.index - (i + 1)) + 1 := by omega
      rw [hj]
      simpa using hg

/-- Scored entries carry indices bounded below by the start index. -/
theorem scoreChunksFrom_le_index (q : List ℝ) (i : Nat)
    (store : List (String × List ℝ)) (it : ScoredChunk)
    (h : it ∈ scoreChunksFrom q i store) : i ≤ it.index :=
  (mem_scoreChunksFrom q i store it h).1

/-- The scored entries are produced with strictly increasing original
indices. -/
theorem scoreChunksFrom_pairwise (q : List ℝ) (i : Nat)
    (store : List (String × List ℝ)) :
    (scoreChunksFrom q i store).Pairwise (fun a b => a.index < b.index) := by
  induction store generalizing i with
  | nil => simp [scoreChunksFrom]
  | cons entry rest ih =>
    simp only [scoreChunksFrom]
    rw [List.pairwise_cons]
    refine ⟨?_, ih (i + 1)⟩
    intro y hy
    have := scoreChunksFrom_le_index q (i + 1) rest y hy
    simpa using Nat.lt_of_succ_le this

/-- C3: retrieval returns at most `k` chunk texts; the surviving scored
entries are ordered by descending score with ties broken by original chunk
order; every surviving entry is a stored chunk whose score is exactly the
cosine similarity of the query embedding with its stored embedding and is
at least the threshold (and its text is non-empty); the returned texts are
exactly the surviving entries' chunks; and the caller-side join uses the
distinct `\n\n---\n\n` separator. -/
theorem retrieveRelevantChunks_spec (q : List ℝ)
    (store : List (String × List ℝ)) (k : Nat) (θ : ℝ) :
    (retrieveRelevantChunks q store k θ).length ≤ k ∧
    (retrieveScored q store k θ).Pairwise scoredOrder ∧
    (∀ it ∈ retrieveScored q store k θ,
      θ ≤ it.score ∧ it.chunk ≠ "" ∧
      ∃ e, store.get? it.index = some (it.chunk, e) ∧
        it.score = cosineSimilarity q e) ∧
    retrieveRelevantChunks q store k θ =
      (retrieveScored q store k θ).map (fun it => it.chunk) ∧
    (joinRetrieved [] = "" ∧
      ∀ c1 c2 : String, joinRetrieved [c1, c2] = c1 ++ CHUNK_SEPARATOR ++ c2) := by
  refine ⟨?_, ?_, ?_, rfl, rfl, fun c1 c2 => rfl⟩
  · unfold retrieveRelevantChunks retrieveScored
    split_ifs with hq
    · simp
    · rw [List.length_map, List.length_take]
      exact min_le_left _ _
  · unfold retrieveScored
    split_ifs with hq
    · simp
    · have hp : ((scoreChunksFrom q 0 store).filter
          (fun it => decide (it.chunk ≠ "" ∧ θ ≤ it.score))).Pairwise
          (fun a b => a.index < b.index) :=
        (scoreChunksFrom_pairwise q 0 store).filter _
      exact (sortDesc_pairwise _ hp).sublist (List.take_sublist _ _)
  · intro it hit
    unfold retrieveScored at hit
    split_ifs at hit with hq
    · simp at hit
    · have h1 : it ∈ sortDesc ((scoreChunksFrom q 0 store).filter
          (fun it => decide (it.chunk ≠ "" ∧ θ ≤ it.score))) :=
        List.take_subset _ _ hit
      rw [mem_sortDesc] at h1
      rw [List.mem_filter] at h1
      obtain ⟨hmem, hpred⟩ := h1
      have hp : it.chunk ≠ "" ∧ θ ≤ it.score := of_decide_eq_true hpred
      obtain ⟨-, e, hg, hs⟩ := mem_scoreChunksFrom q 0 store it hmem
      rw [Nat.sub_zero] at hg
      exact ⟨hp.2, hp.1, e, hg, hs⟩

/-- Dropping the overlap from every chunk of a tail segmentation flattens
to the tail of the text past the overlap. -/
theorem chunksAux_drop_flatten (size overlap : Nat) (hov : overlap < size) :
    ∀ fuel (s : List Char), s.length ≤ fuel →
      ((chunksAux size (size - overlap) fuel s).map (List.drop overlap)).flatten
        = s.drop overlap := by
  intro fuel
  induction fuel with
  | zero =>
    intro s hs
    have hnil : s = [] := List.length_eq_zero.1 (Nat.le_zero.1 hs)
    subst hnil
    simp [chunksAux]
  | succ fuel ih =>
    intro s hs
    unfold chunksAux
    split_ifs with hle
    · simp
    · push_neg at hle
      simp only [List.map_cons, List.flatten_cons]
      rw [ih (s.drop (size - overlap))
        (by rw [List.length_drop]; omega)]
      rw [List.drop_drop]
      have hsz : size - overlap + overlap = size := by omega
      rw [hsz]
      have htk : overlap ≤ (s.take size).length := by
        rw [List.length_take]
        omega
      conv_rhs => rw [← List.take_append_drop size s]
      rw [List.drop_append_of_le_length htk]

/-- Concatenating a segmentation with the overlaps of all chunks after the
first stripped reproduces the text. -/
theorem chunksAux_roundtrip (size overlap : Nat) (hov : overlap < size)
    (fuel : Nat) (s : List Char) (hs : s.length ≤ fuel) :
    (dropOverlaps overlap (chunksAux size (size - overlap) fuel s)).flatten
      = s := by
  cases fuel with
  | zero =>
    have hnil : s = [] := List.length_eq_zero.1 (Nat.le_zero.1 hs)
    subst hnil
    simp [chunksAux, dropOverlaps]
  | succ fuel =>
    unfold chunksAux
    split_ifs with hle
    · simp [dropOverlaps]
    · push_neg at hle
      simp only [dropOverlaps, List.flatten_cons]
      rw [chunksAux_drop_flatten size overlap hov fuel (s.drop (size - overlap))
        (by rw [List.length_drop]; omega)]
      rw [List.drop_drop]
      have hsz : size - overlap + overlap = size := by omega
      rw [hsz, List.take_append_drop]

/-- The retrieval chunk configuration always keeps the overlap strictly
below the chunk size. -/
theorem retrievalConfig_overlap_lt (len : Nat) :
    (getOptimalChunkConfig len false).2 < (getOptimalChunkConfig len false).1 := by
  unfold getOptimalChunkConfig
  split_ifs <;> norm_num

/-- C5 (chunker modelled from the spec): for every document text,
concatenating the chunks produced for the retrieval pipeline with the
overlapping portions stripped reproduces the original text exactly. -/
theorem retrievalChunks_roundtrip (s : List Char) :
    (dropOverlaps (getOptimalChunkConfig s.length false).2
      (retrievalChunks s)).flatten = s := by
  unfold retrievalChunks chunkDoc
  exact chunksAux_roundtrip _ _ (retrievalConfig_overlap_lt s.length)
    s.length s (le_refl _)

end ChatWithPage
